import Mathlib

/-!
Shallow embedding of the pkg-upd metadata model and validation rules.

The embedding covers:
* the generic metadata record (`PackageMetadata`, from `aer_data/src/metadata.rs`),
* the chocolatey override record (`ChocolateyMetadata`,
  from `aer_data/src/metadata/chocolatey.rs`) with its reconciliation
  operations `update_from` and `reset_same`,
* the rule based validator (`validate_metadata`, from `pkg-upd/src/rules.rs`
  and `pkg-upd/src/rules/metadata*.rs`).

External crates (`url`, `aer_version`, `aer_license`) are modelled by small
executable stand-ins, documented at each definition.  Strings are manipulated
through structural helpers over `String.data` so that every definition
evaluates by kernel reduction.
-/

/-- Model of Rust `str::is_empty`. -/
def stringIsEmpty (s : String) : Bool :=
  s.data.isEmpty

/-- Model of Rust `str::to_lowercase` (ASCII case folding). -/
def lowercaseString (s : String) : String :=
  ⟨s.data.map Char.toLower⟩

/-- Model of Rust `str::replace(' ', "-")`: the pattern is the single
character `' '`, so the replacement is a character map. -/
def dashifySpaces (s : String) : String :=
  ⟨s.data.map (fun c => if c = ' ' then '-' else c)⟩

/-- Drops leading whitespace characters from a character list. -/
def dropLeadingWhitespace : List Char → List Char
  | [] => []
  | c :: cs => if c.isWhitespace then dropLeadingWhitespace cs else c :: cs

/-- Model of Rust `str::trim`: removes leading and trailing whitespace. -/
def trimString (s : String) : String :=
  ⟨((dropLeadingWhitespace ((dropLeadingWhitespace s.data).reverse)).reverse)⟩

/-- Parses a character list as a decimal natural number; `none` when empty or
when a non-digit occurs. -/
def digitsToNat : List Char → Option Nat
  | [] => none
  | cs =>
    if cs.all Char.isDigit then
      some (cs.foldl (fun acc c => acc * 10 + (c.toNat - 48)) 0)
    else none

/-- Simplified model of the external `url` crate's parsed `Url` value:
a scheme (normalised to lower case by parsing), a host (possibly empty, as in
`file:///path` URLs) and a path. -/
structure Url where
  scheme : String
  host : String
  path : String
deriving DecidableEq, Repr

/-- Model of `url::Url::as_str` / `AsRef<str>`: the serialised form. -/
def Url.toString (u : Url) : String :=
  u.scheme ++ "://" ++ u.host ++ u.path

/-- Model of `url::Url::has_host`. -/
def Url.has_host (u : Url) : Bool :=
  !stringIsEmpty u.host

/-- Model of `url::Url::to_file_path().is_ok()`: only `file` scheme URLs are
convertible to a local file path. -/
def Url.to_file_path_isOk (u : Url) : Bool :=
  u.scheme == "file"

/-- Characters allowed in a URL scheme after the leading letter. -/
def isSchemeChar (c : Char) : Bool :=
  c.isAlphanum || c == '+' || c == '-' || c == '.'

/-- Splits a character list at the first occurrence of `"://"`, returning the
part before and the part after. -/
def splitAtSchemeSep : List Char → Option (List Char × List Char)
  | [] => none
  | ':' :: '/' :: '/' :: rest => some ([], rest)
  | c :: cs =>
    match splitAtSchemeSep cs with
    | some (before, after) => some (c :: before, after)
    | none => none

/-- Simplified model of `url::Url::parse`: requires a `scheme://` prefix with
an alphabetic first scheme character, splits the remainder into host and path,
and lowercases the scheme.  Syntactically invalid inputs yield `none`, which
models the `url::ParseError` outcome of the external crate. -/
def Url.parse (s : String) : Option Url :=
  match splitAtSchemeSep s.data with
  | none => none
  | some (schemeChars, rest) =>
    match schemeChars with
    | [] => none
    | c :: cs =>
      if c.isAlpha && cs.all isSchemeChar then
        some ⟨⟨(c :: cs).map Char.toLower⟩,
              ⟨rest.takeWhile (fun ch => ch != '/')⟩,
              ⟨rest.dropWhile (fun ch => ch != '/')⟩⟩
      else none

/-- Modelled from the spec: the `Version` value type of the external
`aer_version` crate is "an opaque ordered, parseable, stringifiable value
(semantic-version-like)". -/
structure SemVersion where
  major : Nat
  minor : Nat
  patch : Nat
deriving DecidableEq, Repr

/-- Modelled from the spec: the `Versions` union of the external `aer_version`
crate, of which only the semantic-version variant is needed here. -/
inductive Versions where
  | SemVer (v : SemVersion)
deriving DecidableEq, Repr

/-- Splits a character list on a separator character. -/
def splitOnChar (sep : Char) : List Char → List (List Char)
  | [] => [[]]
  | c :: cs =>
    if c = sep then [] :: splitOnChar sep cs
    else
      match splitOnChar sep cs with
      | [] => [[c]]
      | part :: parts => (c :: part) :: parts

/-- Modelled from the spec: the version parser of the external `aer_version`
crate; parses `major.minor.patch` with decimal components, `none` otherwise. -/
def Versions.parse (s : String) : Option Versions :=
  match (splitOnChar '.' s.data).map digitsToNat with
  | [some a, some b, some c] => some (Versions.SemVer ⟨a, b, c⟩)
  | _ => none

/-- `defaults::url` from `aer_data/src/defaults.rs`: the placeholder URL
`https://example.com/MUST_BE_CHANGED`. -/
def defaults.url : Url :=
  ⟨"https", "example.com", "/MUST_BE_CHANGED"⟩

/-- `defaults::empty_version` from `aer_data/src/defaults.rs`: the zero
version `0.0.0`. -/
def defaults.empty_version : Versions :=
  Versions.SemVer ⟨0, 0, 0⟩

/-- Modelled from the spec: `defaults::maintainer` reads an environment
variable or the OS user; the spec treats it as an injectable default-provider
called once at construction, so it is modelled as an opaque constant list. -/
def defaults.maintainer : List String :=
  ["aer-default-maintainer"]

/-- Reducible alias for `Url`; needed below because `LicenseType` has a
constructor that is also named `Url`. -/
abbrev UrlValue : Type := Url

/-- Modelled from the spec: the license union of the external `aer_license`
crate, `{None, Expression(spdx-like string), Url(location), Both(expression,
location)}`. -/
inductive LicenseType where
  | None
  | Expression (expr : String)
  | Url (location : UrlValue)
  | Both (expr : String) (location : UrlValue)
deriving DecidableEq, Repr

/-- Modelled from the spec: the opaque license-expression-to-URL lookup table
collaborator, defined for a few recognized expressions and `none` otherwise. -/
def licenseExpressionUrl (expr : String) : Option Url :=
  if expr = "MIT" then some ⟨"https", "opensource.org", "/licenses/MIT"⟩
  else if expr = "Apache-2.0" then some ⟨"https", "opensource.org", "/licenses/Apache-2.0"⟩
  else if expr = "GPL-3.0" then some ⟨"https", "opensource.org", "/licenses/GPL-3.0"⟩
  else none

/-- Modelled from the spec: `license_url()` of the external `aer_license`
crate: "for `Url`/`Both` returns the explicit URL; for `Expression` returns a
lookup-table result for recognized expressions, else `None`; for `None`
returns `None`". -/
def LicenseType.license_url : LicenseType → Option UrlValue
  | LicenseType.None => none
  | LicenseType.Expression expr => licenseExpressionUrl expr
  | LicenseType.Url location => some location
  | LicenseType.Both _ location => some location

/-- The `Description` union from `aer_data/src/metadata.rs` (`PathBuf`
modelled as a string; the `from` field is renamed `from_path` since `from` is
a Lean keyword). -/
inductive Description where
  | None
  | Location (from_path : String) (skip_start : Nat) (skip_end : Nat)
  | Text (value : String)
deriving DecidableEq, Repr

/-- `ChocolateyMetadata` from `aer_data/src/metadata/chocolatey.rs`, fields in
source order.  `HashMap` fields are modelled as association lists with unique
keys and `PathBuf` keys as strings. -/
structure ChocolateyMetadata where
  lowercase_id : Bool
  id : String
  maintainers : List String
  summary : Option String
  project_url : Option Url
  project_source_url : Option Url
  package_source_url : Option Url
  license_url : Option Url
  title : Option String
  copyright : Option String
  version : Versions
  authors : List String
  description : Description
  require_license_acceptance : Bool
  documentation_url : Option Url
  issues_url : Option Url
  tags : List String
  release_notes : Option String
  dependencies : List (String × Versions)
  files : List (String × String)
deriving DecidableEq, Repr

/-- `generate_identifier` from `aer_data/src/metadata/chocolatey.rs`:
optionally lowercases, then replaces spaces with dashes. -/
def generate_identifier (id : String) (lowercase : Bool) : String :=
  dashifySpaces (if lowercase then lowercaseString id else id)

/-- The `Default` impl for `ChocolateyMetadata`. -/
def ChocolateyMetadata.default : ChocolateyMetadata where
  lowercase_id := true
  id := ""
  maintainers := []
  summary := none
  project_url := none
  project_source_url := none
  package_source_url := none
  license_url := none
  title := none
  copyright := none
  version := defaults.empty_version
  authors := []
  description := Description.None
  require_license_acceptance := true
  documentation_url := none
  issues_url := none
  tags := []
  release_notes := none
  dependencies := []
  files := []

/-- `ChocolateyMetadata::new`, which returns the default instance. -/
def ChocolateyMetadata.new : ChocolateyMetadata :=
  ChocolateyMetadata.default

/-- `ChocolateyMetadata::with_authors`: panics when the author list is empty
(modelled as `none`, before any field is set); otherwise sets the authors on a
fresh default record (the `Display`-to-string conversion is the identity on
strings). -/
def ChocolateyMetadata.with_authors (values : List String) :
    Option ChocolateyMetadata :=
  if values.isEmpty then none
  else some { ChocolateyMetadata.default with authors := values }

/-- Model of `HashMap::insert`: replaces the value of an existing key,
otherwise appends the new binding. -/
def insertDependency (deps : List (String × Versions)) (id : String)
    (ver : Versions) : List (String × Versions) :=
  if deps.any (fun p => p.1 == id) then
    deps.map (fun p => if p.1 == id then (id, ver) else p)
  else deps ++ [(id, ver)]

/-- `ChocolateyMetadata::add_dependencies`: parses the version with the
external parser and calls `.unwrap()` on the result, so an unparseable version
string panics; the panic is modelled as `none`. -/
def ChocolateyMetadata.add_dependencies (self : ChocolateyMetadata)
    (id : String) (version : String) : Option ChocolateyMetadata :=
  match Versions.parse version with
  | some ver => some { self with dependencies := insertDependency self.dependencies id ver }
  | none => none

/-- `PackageMetadata` from `aer_data/src/metadata.rs`, fields in source
order. -/
structure PackageMetadata where
  package_source_url : Option Url
  id : String
  maintainers : List String
  summary : String
  project_url : Url
  project_source_url : Option Url
  license : LicenseType
  chocolatey : Option ChocolateyMetadata
deriving DecidableEq, Repr

/-- `PackageMetadata::new`. -/
def PackageMetadata.new (id : String) : PackageMetadata where
  package_source_url := none
  id := id
  maintainers := defaults.maintainer
  summary := ""
  project_url := defaults.url
  project_source_url := none
  license := LicenseType.None
  chocolatey := none

/-- The `package_source_url()` getter: returns `defaults::url` by value when
the underlying optional field is unset (the `Cow` in the source is a
by-value-or-borrow detail with no observable effect). -/
def PackageMetadata.package_source_url_get (self : PackageMetadata) : Url :=
  match self.package_source_url with
  | some url => url
  | none => defaults.url

/-- The `project_source_url()` getter: returns `defaults::url` by value when
the underlying optional field is unset. -/
def PackageMetadata.project_source_url_get (self : PackageMetadata) : Url :=
  match self.project_source_url with
  | some url => url
  | none => defaults.url

/-- Model of the external `url::ParseError` kind returned by the fallible URL
setters. -/
inductive UrlParseError where
  | invalidUrl
deriving DecidableEq, Repr

/-- `PackageMetadata::set_package_source_url`: parses the string and stores
the URL, or returns the parse error; the record is unchanged on error. -/
def PackageMetadata.set_package_source_url (self : PackageMetadata)
    (url : String) : Except UrlParseError PackageMetadata :=
  match Url.parse url with
  | some u => Except.ok { self with package_source_url := some u }
  | none => Except.error UrlParseError.invalidUrl

/-- `PackageMetadata::set_project_source_url`: parses the string and stores
the URL, or returns the parse error; the record is unchanged on error. -/
def PackageMetadata.set_project_source_url (self : PackageMetadata)
    (url : String) : Except UrlParseError PackageMetadata :=
  match Url.parse url with
  | some u => Except.ok { self with project_source_url := some u }
  | none => Except.error UrlParseError.invalidUrl

/-- `PackageMetadata::set_project_url`: calls `.unwrap()` on the parse result
("We want a failure here to abort the program"), so an invalid URL aborts;
the abort is modelled as `none`. -/
def PackageMetadata.set_project_url (self : PackageMetadata)
    (url : String) : Option PackageMetadata :=
  match Url.parse url with
  | some u => some { self with project_url := u }
  | none => none

/-- First block of `update_from` (`chocolatey.rs` lines 464-466): fill the
identifier from the generic record when it is empty. -/
def ChocolateyMetadata.update_id_from (self : ChocolateyMetadata)
    (source : PackageMetadata) : ChocolateyMetadata :=
  if stringIsEmpty self.id && !stringIsEmpty source.id then
    { self with id := generate_identifier source.id self.lowercase_id }
  else self

/-- Second block of `update_from` (lines 468-470): fill the maintainers. -/
def ChocolateyMetadata.update_maintainers_from (self : ChocolateyMetadata)
    (source : PackageMetadata) : ChocolateyMetadata :=
  if self.maintainers.isEmpty then
    { self with maintainers := source.maintainers }
  else self

/-- Third block of `update_from` (lines 472-474): fill the summary. -/
def ChocolateyMetadata.update_summary_from (self : ChocolateyMetadata)
    (source : PackageMetadata) : ChocolateyMetadata :=
  if self.summary.isNone && !stringIsEmpty source.summary then
    { self with summary := some source.summary }
  else self

/-- Fourth block of `update_from` (lines 476-478): fill the project URL from
the generic getter, which always yields a value. -/
def ChocolateyMetadata.update_project_url_from (self : ChocolateyMetadata)
    (source : PackageMetadata) : ChocolateyMetadata :=
  if self.project_url.isNone then
    { self with project_url := some source.project_url }
  else self

/-- Fifth block of `update_from` (lines 480-482): copy the generic record's
raw optional `project_source_url` field. -/
def ChocolateyMetadata.update_project_source_url_from
    (self : ChocolateyMetadata) (source : PackageMetadata) :
    ChocolateyMetadata :=
  if self.project_source_url.isNone then
    { self with project_source_url := source.project_source_url }
  else self

/-- Sixth block of `update_from` (lines 484-486): copy the generic record's
raw optional `package_source_url` field. -/
def ChocolateyMetadata.update_package_source_url_from
    (self : ChocolateyMetadata) (source : PackageMetadata) :
    ChocolateyMetadata :=
  if self.package_source_url.isNone then
    { self with package_source_url := source.package_source_url }
  else self

/-- Seventh block of `update_from` (lines 488-492): derive the license URL.
The source re-parses the string form of the derived license URL and unwraps;
since the external `url` crate guarantees that serialising and re-parsing a
`Url` is the identity, that step is modelled as using the URL value
directly. -/
def ChocolateyMetadata.update_license_url_from (self : ChocolateyMetadata)
    (source : PackageMetadata) : ChocolateyMetadata :=
  if self.license_url.isNone then
    match source.license.license_url with
    | some license => { self with license_url := some license }
    | none => self
  else self

/-- Final block of `update_from` (lines 494-497): insert the lowercase
identifier at the front of the tags when absent. -/
def ChocolateyMetadata.update_tag_bootstrap (self : ChocolateyMetadata) :
    ChocolateyMetadata :=
  let lower_id := lowercaseString self.id
  if !stringIsEmpty self.id && !self.tags.contains lower_id then
    { self with tags := lower_id :: self.tags }
  else self

/-- `DataUpdater::update_from` for `ChocolateyMetadata`
(`aer_data/src/metadata/chocolatey.rs` lines 462-498): the source's if-blocks
run in order on the same record, written here as a composition of one
function per block. -/
def ChocolateyMetadata.update_from (self : ChocolateyMetadata)
    (source : PackageMetadata) : ChocolateyMetadata :=
  (((((((self.update_id_from source).update_maintainers_from source
    ).update_summary_from source).update_project_url_from source
    ).update_project_source_url_from source
    ).update_package_source_url_from source
    ).update_license_url_from source).update_tag_bootstrap

/-- First block of `reset_same` (`chocolatey.rs` lines 523-525): clear the
identifier when it matches the generated one. -/
def ChocolateyMetadata.reset_id_same (self : ChocolateyMetadata)
    (source : PackageMetadata) : ChocolateyMetadata :=
  if self.id = generate_identifier source.id self.lowercase_id then
    { self with id := "" }
  else self

/-- Second block of `reset_same` (lines 527-529): clear equal maintainers. -/
def ChocolateyMetadata.reset_maintainers_same (self : ChocolateyMetadata)
    (source : PackageMetadata) : ChocolateyMetadata :=
  if self.maintainers = source.maintainers then
    { self with maintainers := [] }
  else self

/-- Third block of `reset_same` (lines 531-535): clear an equal summary. -/
def ChocolateyMetadata.reset_summary_same (self : ChocolateyMetadata)
    (source : PackageMetadata) : ChocolateyMetadata :=
  match self.summary with
  | some summary =>
    if summary = source.summary then { self with summary := none } else self
  | none => self

/-- Fourth block of `reset_same` (lines 537-541): clear an equal project
URL. -/
def ChocolateyMetadata.reset_project_url_same (self : ChocolateyMetadata)
    (source : PackageMetadata) : ChocolateyMetadata :=
  match self.project_url with
  | some url =>
    if url = source.project_url then { self with project_url := none } else self
  | none => self

/-- Fifth block of `reset_same` (lines 543-547): clear a project source URL
equal to the generic getter's value. -/
def ChocolateyMetadata.reset_project_source_url_same
    (self : ChocolateyMetadata) (source : PackageMetadata) :
    ChocolateyMetadata :=
  match self.project_source_url with
  | some url =>
    if url = source.project_source_url_get then
      { self with project_source_url := none }
    else self
  | none => self

/-- Sixth block of `reset_same` (lines 549-553): clear a package source URL
equal to the generic getter's value. -/
def ChocolateyMetadata.reset_package_source_url_same
    (self : ChocolateyMetadata) (source : PackageMetadata) :
    ChocolateyMetadata :=
  match self.package_source_url with
  | some url =>
    if url = source.package_source_url_get then
      { self with package_source_url := none }
    else self
  | none => self

/-- Seventh block of `reset_same` (lines 555-561): clear the license URL when
its serialised form (`url.as_ref()`) equals the derived license URL string. -/
def ChocolateyMetadata.reset_license_url_same (self : ChocolateyMetadata)
    (source : PackageMetadata) : ChocolateyMetadata :=
  match self.license_url with
  | some url =>
    match source.license.license_url with
    | some license_url =>
      if url.toString = license_url.toString then
        { self with license_url := none }
      else self
    | none => self
  | none => self

/-- Final block of `reset_same` (line 563): remove the tags equal to the
lowercase identifier captured at entry. -/
def ChocolateyMetadata.reset_tag_same (self : ChocolateyMetadata)
    (id : String) : ChocolateyMetadata :=
  { self with tags := self.tags.filter (fun t => t != id) }

/-- `DataUpdater::reset_same` for `ChocolateyMetadata`
(`aer_data/src/metadata/chocolatey.rs` lines 520-564): the lowercase
identifier is captured first (line 522), then the source's blocks run in
order on the same record. -/
def ChocolateyMetadata.reset_same (self : ChocolateyMetadata)
    (source : PackageMetadata) : ChocolateyMetadata :=
  ((((((((self.reset_id_same source).reset_maintainers_same source
    ).reset_summary_same source).reset_project_url_same source
    ).reset_project_source_url_same source
    ).reset_package_source_url_same source
    ).reset_license_url_same source).reset_tag_same (lowercaseString self.id))

/-- `MessageType` from `pkg-upd/src/rules.rs`. -/
inductive MessageType where
  | Requirement
  | Guideline
  | Suggestion
  | Note
deriving DecidableEq, Repr

/-- `RuleMessage` from `pkg-upd/src/rules.rs`. -/
structure RuleMessage where
  message_type : MessageType
  package_manager : String
  message : String
deriving DecidableEq, Repr

instance {ε α : Type} [DecidableEq ε] [DecidableEq α] : DecidableEq (Except ε α) := fun a b =>
  match a, b with
  | Except.ok x, Except.ok y =>
    if h : x = y then Decidable.isTrue (by rw [h])
    else Decidable.isFalse (fun hc => h (by injection hc))
  | Except.error e, Except.error f =>
    if h : e = f then Decidable.isTrue (by rw [h])
    else Decidable.isFalse (fun hc => h (by injection hc))
  | Except.ok _, Except.error _ => Decidable.isFalse (fun hc => Except.noConfusion hc)
  | Except.error _, Except.ok _ => Decidable.isFalse (fun hc => Except.noConfusion hc)

/-- `RuleKind` from `pkg-upd/src/rules.rs`. -/
inductive RuleKind where
  | Core
  | Community
deriving DecidableEq, BEq, Repr

/-- `IdNotEmptyRequirement::should_validate`: always true. -/
def IdNotEmptyRequirement.should_validate (_ : RuleKind) : Bool :=
  true

/-- The diagnostic produced by `IdNotEmptyRequirement`. -/
def idNotEmptyMessage : RuleMessage :=
  ⟨MessageType.Requirement, "", "A identifier can not be empty!"⟩

/-- `IdNotEmptyRequirement::validate`: the `Err` outcome is modelled as
`some` of the message, `Ok` as `none`. -/
def IdNotEmptyRequirement.validate (data : PackageMetadata) :
    Option RuleMessage :=
  if stringIsEmpty (trimString data.id) then
    some idNotEmptyMessage
  else none

/-- `MaintainersNotEmptyRequirement::should_validate`: always true. -/
def MaintainersNotEmptyRequirement.should_validate (_ : RuleKind) : Bool :=
  true

/-- The diagnostic produced by `MaintainersNotEmptyRequirement`. -/
def maintainersNotEmptyMessage : RuleMessage :=
  ⟨MessageType.Requirement, "",
    "At least 1 maintainer must be specified for the package!"⟩

/-- `MaintainersNotEmptyRequirement::validate`. -/
def MaintainersNotEmptyRequirement.validate (metadata : PackageMetadata) :
    Option RuleMessage :=
  if metadata.maintainers.all (fun m => stringIsEmpty m) then
    some maintainersNotEmptyMessage
  else none

/-- `ProjectUrlNotLocalPathRequirement::should_validate`: always true. -/
def ProjectUrlNotLocalPathRequirement.should_validate (_ : RuleKind) : Bool :=
  true

/-- The diagnostic produced by `ProjectUrlNotLocalPathRequirement`. -/
def projectUrlNotLocalPathMessage : RuleMessage :=
  ⟨MessageType.Requirement, "", "The project url can not be a local path!"⟩

/-- `ProjectUrlNotLocalPathRequirement::validate`. -/
def ProjectUrlNotLocalPathRequirement.validate (data : PackageMetadata) :
    Option RuleMessage :=
  let project_url := data.project_url
  if !project_url.has_host || project_url.to_file_path_isOk
      || (lowercaseString project_url.scheme == "file") then
    some projectUrlNotLocalPathMessage
  else none

/-- `IdIsLowercaseNote::should_validate`: only at `Community` strictness. -/
def IdIsLowercaseNote.should_validate (rule_kind : RuleKind) : Bool :=
  rule_kind == RuleKind.Community

/-- The diagnostic produced by `IdIsLowercaseNote`. -/
def idIsLowercaseMessage : RuleMessage :=
  ⟨MessageType.Note, "choco",
    "The identifier contains upper case characters. If this is a new package, it should only contain characters in lower case!"⟩

/-- `IdIsLowercaseNote::validate`. -/
def IdIsLowercaseNote.validate (data : PackageMetadata) :
    Option RuleMessage :=
  if data.id.data.any (fun ch => ch.isUpper) then
    some idIsLowercaseMessage
  else none

/-- `run_validation` from `pkg-upd/src/rules/metadata/chocolatey.rs`: the
`call_rules!` expansion over the single chocolatey rule; produced messages are
appended in registration order. -/
def rules.metadata.chocolatey.run_validation (data : PackageMetadata)
    (rule_kind : RuleKind) : List RuleMessage :=
  (if IdIsLowercaseNote.should_validate rule_kind then
    (IdIsLowercaseNote.validate data).toList
  else [])

/-- `run_validation` from `pkg-upd/src/rules/metadata.rs`: the `call_rules!`
expansion over the three generic rules in registration order, followed by the
chocolatey rule set. -/
def rules.metadata.run_validation (data : PackageMetadata)
    (rule_kind : RuleKind) : List RuleMessage :=
  (if IdNotEmptyRequirement.should_validate rule_kind then
    (IdNotEmptyRequirement.validate data).toList
  else [])
  ++ (if MaintainersNotEmptyRequirement.should_validate rule_kind then
    (MaintainersNotEmptyRequirement.validate data).toList
  else [])
  ++ (if ProjectUrlNotLocalPathRequirement.should_validate rule_kind then
    (ProjectUrlNotLocalPathRequirement.validate data).toList
  else [])
  ++ rules.metadata.chocolatey.run_validation data rule_kind

/-- `validate_metadata` from `pkg-upd/src/rules.rs`: runs the rules,
succeeding exactly when no message was collected. -/
def validate_metadata (data : PackageMetadata) (rule_kind : RuleKind) :
    Except (List RuleMessage) Unit :=
  let msgs := rules.metadata.run_validation data rule_kind
  if msgs.isEmpty then Except.ok () else Except.error msgs

/-- Value of the identifier field after `update_from`, as a function of the
override's current identifier and lowercase flag. -/
def updatedId (current : String) (lowercase : Bool)
    (source : PackageMetadata) : String :=
  if stringIsEmpty current && !stringIsEmpty source.id then
    generate_identifier source.id lowercase
  else current

/-- Value of the maintainers field after `update_from`. -/
def updatedMaintainers (current : List String)
    (source : PackageMetadata) : List String :=
  if current.isEmpty then source.maintainers else current

/-- Value of the summary field after `update_from`. -/
def updatedSummary (current : Option String)
    (source : PackageMetadata) : Option String :=
  if current.isNone && !stringIsEmpty source.summary then
    some source.summary
  else current

/-- Value of the project URL field after `update_from`. -/
def updatedProjectUrl (current : Option Url)
    (source : PackageMetadata) : Option Url :=
  if current.isNone then some source.project_url else current

/-- Value of the project source URL field after `update_from`. -/
def updatedProjectSourceUrl (current : Option Url)
    (source : PackageMetadata) : Option Url :=
  if current.isNone then source.project_source_url else current

/-- Value of the package source URL field after `update_from`. -/
def updatedPackageSourceUrl (current : Option Url)
    (source : PackageMetadata) : Option Url :=
  if current.isNone then source.package_source_url else current

/-- Value of the license URL field after `update_from`. -/
def updatedLicenseUrl (current : Option Url)
    (source : PackageMetadata) : Option Url :=
  if current.isNone then
    match source.license.license_url with
    | some license => some license
    | none => current
  else current

/-- Value of the tags field after `update_from`, as a function of the
current tags and the resolved identifier. -/
def updatedTags (currentTags : List String) (id : String) : List String :=
  if !stringIsEmpty id && !currentTags.contains (lowercaseString id) then
    lowercaseString id :: currentTags
  else currentTags

/-- Value of the identifier field after `reset_same`. -/
def resetId (current : String) (lowercase : Bool)
    (source : PackageMetadata) : String :=
  if current = generate_identifier source.id lowercase then "" else current

/-- Value of the maintainers field after `reset_same`. -/
def resetMaintainers (current : List String)
    (source : PackageMetadata) : List String :=
  if current = source.maintainers then [] else current

/-- Value of the summary field after `reset_same`. -/
def resetSummary (current : Option String)
    (source : PackageMetadata) : Option String :=
  match current with
  | some summary => if summary = source.summary then none else some summary
  | none => none

/-- Value of the project URL field after `reset_same`. -/
def resetProjectUrl (current : Option Url)
    (source : PackageMetadata) : Option Url :=
  match current with
  | some url => if url = source.project_url then none else some url
  | none => none

/-- Value of the project source URL field after `reset_same`. -/
def resetProjectSourceUrl (current : Option Url)
    (source : PackageMetadata) : Option Url :=
  match current with
  | some url => if url = source.project_source_url_get then none else some url
  | none => none

/-- Value of the package source URL field after `reset_same`. -/
def resetPackageSourceUrl (current : Option Url)
    (source : PackageMetadata) : Option Url :=
  match current with
  | some url => if url = source.package_source_url_get then none else some url
  | none => none

/-- Value of the license URL field after `reset_same`. -/
def resetLicenseUrl (current : Option Url)
    (source : PackageMetadata) : Option Url :=
  match current with
  | some url =>
    match source.license.license_url with
    | some license_url =>
      if url.toString = license_url.toString then none else some url
    | none => some url
  | none => none

/-- Value of the tags field after `reset_same`, as a function of the current
tags and the lowercase identifier captured at entry. -/
def resetTags (currentTags : List String) (id : String) : List String :=
  currentTags.filter (fun t => t != id)

theorem update_id_from_eq (self : ChocolateyMetadata) (source : PackageMetadata) :
    self.update_id_from source
      = { self with id := updatedId self.id self.lowercase_id source } := by
  unfold ChocolateyMetadata.update_id_from updatedId
  split <;> rfl

theorem update_maintainers_from_eq (self : ChocolateyMetadata) (source : PackageMetadata) :
    self.update_maintainers_from source
      = { self with maintainers := updatedMaintainers self.maintainers source } := by
  unfold ChocolateyMetadata.update_maintainers_from updatedMaintainers
  split <;> rfl

theorem update_summary_from_eq (self : ChocolateyMetadata) (source : PackageMetadata) :
    self.update_summary_from source
      = { self with summary := updatedSummary self.summary source } := by
  unfold ChocolateyMetadata.update_summary_from updatedSummary
  split <;> rfl

theorem update_project_url_from_eq (self : ChocolateyMetadata) (source : PackageMetadata) :
    self.update_project_url_from source
      = { self with project_url := updatedProjectUrl self.project_url source } := by
  unfold ChocolateyMetadata.update_project_url_from updatedProjectUrl
  split <;> rfl

theorem update_project_source_url_from_eq (self : ChocolateyMetadata) (source : PackageMetadata) :
    self.update_project_source_url_from source
      = { self with project_source_url := updatedProjectSourceUrl self.project_source_url source } := by
  unfold ChocolateyMetadata.update_project_source_url_from updatedProjectSourceUrl
  split <;> rfl

theorem update_package_source_url_from_eq (self : ChocolateyMetadata) (source : PackageMetadata) :
    self.update_package_source_url_from source
      = { self with package_source_url := updatedPackageSourceUrl self.package_source_url source } := by
  unfold ChocolateyMetadata.update_package_source_url_from updatedPackageSourceUrl
  split <;> rfl

theorem update_license_url_from_eq (self : ChocolateyMetadata) (source : PackageMetadata) :
    self.update_license_url_from source
      = { self with license_url := updatedLicenseUrl self.license_url source } := by
  unfold ChocolateyMetadata.update_license_url_from updatedLicenseUrl
  split
  · split <;> rfl
  · rfl

theorem update_tag_bootstrap_eq (self : ChocolateyMetadata) :
    self.update_tag_bootstrap
      = { self with tags := updatedTags self.tags self.id } := by
  simp only [ChocolateyMetadata.update_tag_bootstrap, updatedTags]
  split <;> rfl

theorem ChocolateyMetadata.update_from_eq (self : ChocolateyMetadata) (source : PackageMetadata) :
    self.update_from source = { self with
      id := updatedId self.id self.lowercase_id source,
      maintainers := updatedMaintainers self.maintainers source,
      summary := updatedSummary self.summary source,
      project_url := updatedProjectUrl self.project_url source,
      project_source_url := updatedProjectSourceUrl self.project_source_url source,
      package_source_url := updatedPackageSourceUrl self.package_source_url source,
      license_url := updatedLicenseUrl self.license_url source,
      tags := updatedTags self.tags (updatedId self.id self.lowercase_id source) } := by
  simp only [ChocolateyMetadata.update_from, update_id_from_eq,
    update_maintainers_from_eq, update_summary_from_eq, update_project_url_from_eq,
    update_project_source_url_from_eq, update_package_source_url_from_eq,
    update_license_url_from_eq, update_tag_bootstrap_eq]

theorem reset_id_same_eq (self : ChocolateyMetadata) (source : PackageMetadata) :
    self.reset_id_same source
      = { self with id := resetId self.id self.lowercase_id source } := by
  unfold ChocolateyMetadata.reset_id_same resetId
  split <;> rfl

theorem reset_maintainers_same_eq (self : ChocolateyMetadata) (source : PackageMetadata) :
    self.reset_maintainers_same source
      = { self with maintainers := resetMaintainers self.maintainers source } := by
  unfold ChocolateyMetadata.reset_maintainers_same resetMaintainers
  split <;> rfl

theorem reset_summary_same_eq (self : ChocolateyMetadata) (source : PackageMetadata) :
    self.reset_summary_same source
      = { self with summary := resetSummary self.summary source } := by
  unfold ChocolateyMetadata.reset_summary_same resetSummary
  cases hs : self.summary with
  | none => simp only [hs]; rw [← hs]
  | some a => simp only [hs]; split <;> simp only [← hs]

theorem reset_project_url_same_eq (self : ChocolateyMetadata) (source : PackageMetadata) :
    self.reset_project_url_same source
      = { self with project_url := resetProjectUrl self.project_url source } := by
  unfold ChocolateyMetadata.reset_project_url_same resetProjectUrl
  cases hs : self.project_url with
  | none => simp only [hs]; rw [← hs]
  | some a => simp only [hs]; split <;> simp only [← hs]

theorem reset_project_source_url_same_eq (self : ChocolateyMetadata) (source : PackageMetadata) :
    self.reset_project_source_url_same source
      = { self with project_source_url := resetProjectSourceUrl self.project_source_url source } := by
  unfold ChocolateyMetadata.reset_project_source_url_same resetProjectSourceUrl
  cases hs : self.project_source_url with
  | none => simp only [hs]; rw [← hs]
  | some a => simp only [hs]; split <;> simp only [← hs]

theorem reset_package_source_url_same_eq (self : ChocolateyMetadata) (source : PackageMetadata) :
    self.reset_package_source_url_same source
      = { self with package_source_url := resetPackageSourceUrl self.package_source_url source } := by
  unfold ChocolateyMetadata.reset_package_source_url_same resetPackageSourceUrl
  cases hs : self.package_source_url with
  | none => simp only [hs]; rw [← hs]
  | some a => simp only [hs]; split <;> simp only [← hs]

theorem reset_license_url_same_eq (self : ChocolateyMetadata) (source : PackageMetadata) :
    self.reset_license_url_same source
      = { self with license_url := resetLicenseUrl self.license_url source } := by
  unfold ChocolateyMetadata.reset_license_url_same resetLicenseUrl
  cases hs : self.license_url with
  | none => simp only [hs]; rw [← hs]
  | some a =>
    cases hL : source.license.license_url with
    | none => simp only [hs, hL]; rw [← hs]
    | some lu => simp only [hs, hL]; split <;> simp only [← hs]

theorem reset_tag_same_eq (self : ChocolateyMetadata) (id : String) :
    self.reset_tag_same id = { self with tags := resetTags self.tags id } := by
  rfl

theorem ChocolateyMetadata.reset_same_eq (self : ChocolateyMetadata) (source : PackageMetadata) :
    self.reset_same source = { self with
      id := resetId self.id self.lowercase_id source,
      maintainers := resetMaintainers self.maintainers source,
      summary := resetSummary self.summary source,
      project_url := resetProjectUrl self.project_url source,
      project_source_url := resetProjectSourceUrl self.project_source_url source,
      package_source_url := resetPackageSourceUrl self.package_source_url source,
      license_url := resetLicenseUrl self.license_url source,
      tags := resetTags self.tags (lowercaseString self.id) } := by
  simp only [ChocolateyMetadata.reset_same, reset_id_same_eq, reset_maintainers_same_eq,
    reset_summary_same_eq, reset_project_url_same_eq, reset_project_source_url_same_eq,
    reset_package_source_url_same_eq, reset_license_url_same_eq, reset_tag_same_eq]

theorem updatedId_idem (current : String) (lowercase : Bool) (source : PackageMetadata) :
    updatedId (updatedId current lowercase source) lowercase source
      = updatedId current lowercase source := by
  unfold updatedId
  split <;> simp_all

theorem updatedMaintainers_idem (current : List String) (source : PackageMetadata) :
    updatedMaintainers (updatedMaintainers current source) source
      = updatedMaintainers current source := by
  unfold updatedMaintainers
  split <;> simp_all

theorem updatedSummary_idem (current : Option String) (source : PackageMetadata) :
    updatedSummary (updatedSummary current source) source
      = updatedSummary current source := by
  unfold updatedSummary
  split <;> simp_all

theorem updatedProjectUrl_idem (current : Option Url) (source : PackageMetadata) :
    updatedProjectUrl (updatedProjectUrl current source) source
      = updatedProjectUrl current source := by
  unfold updatedProjectUrl
  split <;> simp_all

theorem updatedProjectSourceUrl_idem (current : Option Url) (source : PackageMetadata) :
    updatedProjectSourceUrl (updatedProjectSourceUrl current source) source
      = updatedProjectSourceUrl current source := by
  unfold updatedProjectSourceUrl
  split <;> simp_all

theorem updatedPackageSourceUrl_idem (current : Option Url) (source : PackageMetadata) :
    updatedPackageSourceUrl (updatedPackageSourceUrl current source) source
      = updatedPackageSourceUrl current source := by
  unfold updatedPackageSourceUrl
  split <;> simp_all

theorem updatedLicenseUrl_idem (current : Option Url) (source : PackageMetadata) :
    updatedLicenseUrl (updatedLicenseUrl current source) source
      = updatedLicenseUrl current source := by
  unfold updatedLicenseUrl
  cases hL : source.license.license_url <;> split <;> simp_all

theorem updatedTags_idem (currentTags : List String) (id : String) :
    updatedTags (updatedTags currentTags id) id = updatedTags currentTags id := by
  unfold updatedTags
  split <;> simp_all

/-- C1: for every generic metadata record `G` and every chocolatey override
record `O`, applying `update_from` twice with the same `G` yields the same
record as applying it once. -/
theorem c1_update_from_idempotent (O : ChocolateyMetadata) (G : PackageMetadata) :
    (O.update_from G).update_from G = O.update_from G := by
  rw [ChocolateyMetadata.update_from_eq O G]
  rw [ChocolateyMetadata.update_from_eq]
  simp [updatedId_idem, updatedMaintainers_idem, updatedSummary_idem,
    updatedProjectUrl_idem, updatedProjectSourceUrl_idem, updatedPackageSourceUrl_idem,
    updatedLicenseUrl_idem, updatedTags_idem]

/-- C7: neither `update_from` nor `reset_same` modifies the override record's
title, copyright, release notes, version, authors, description,
`require_license_acceptance` flag, `lowercase_id` flag, documentation URL,
issues URL, dependencies, or files. -/
theorem c7_reconciliation_frame (O : ChocolateyMetadata) (G : PackageMetadata) :
    ((O.update_from G).title = O.title ∧ (O.update_from G).copyright = O.copyright
      ∧ (O.update_from G).release_notes = O.release_notes
      ∧ (O.update_from G).version = O.version
      ∧ (O.update_from G).authors = O.authors
      ∧ (O.update_from G).description = O.description
      ∧ (O.update_from G).require_license_acceptance = O.require_license_acceptance
      ∧ (O.update_from G).lowercase_id = O.lowercase_id
      ∧ (O.update_from G).documentation_url = O.documentation_url
      ∧ (O.update_from G).issues_url = O.issues_url
      ∧ (O.update_from G).dependencies = O.dependencies
      ∧ (O.update_from G).files = O.files)
    ∧ ((O.reset_same G).title = O.title ∧ (O.reset_same G).copyright = O.copyright
      ∧ (O.reset_same G).release_notes = O.release_notes
      ∧ (O.reset_same G).version = O.version
      ∧ (O.reset_same G).authors = O.authors
      ∧ (O.reset_same G).description = O.description
      ∧ (O.reset_same G).require_license_acceptance = O.require_license_acceptance
      ∧ (O.reset_same G).lowercase_id = O.lowercase_id
      ∧ (O.reset_same G).documentation_url = O.documentation_url
      ∧ (O.reset_same G).issues_url = O.issues_url
      ∧ (O.reset_same G).dependencies = O.dependencies
      ∧ (O.reset_same G).files = O.files) := by
  rw [ChocolateyMetadata.update_from_eq, ChocolateyMetadata.reset_same_eq]
  exact ⟨⟨rfl, rfl, rfl, rfl, rfl, rfl, rfl, rfl, rfl, rfl, rfl, rfl⟩,
    ⟨rfl, rfl, rfl, rfl, rfl, rfl, rfl, rfl, rfl, rfl, rfl, rfl⟩⟩

theorem resetId_updatedId_of_empty (lowercase : Bool) (source : PackageMetadata) :
    resetId (updatedId "" lowercase source) lowercase source = "" := by
  unfold resetId updatedId
  split <;> simp_all

theorem resetMaintainers_updatedMaintainers_of_empty (source : PackageMetadata) :
    resetMaintainers (updatedMaintainers [] source) source = [] := by
  unfold resetMaintainers updatedMaintainers
  simp

theorem resetSummary_updatedSummary_of_none (source : PackageMetadata) :
    resetSummary (updatedSummary none source) source = none := by
  unfold resetSummary updatedSummary
  split <;> simp_all

theorem resetProjectUrl_updatedProjectUrl_of_none (source : PackageMetadata) :
    resetProjectUrl (updatedProjectUrl none source) source = none := by
  unfold resetProjectUrl updatedProjectUrl
  simp

theorem resetProjectSourceUrl_updatedProjectSourceUrl_of_none (source : PackageMetadata) :
    resetProjectSourceUrl (updatedProjectSourceUrl none source) source = none := by
  unfold resetProjectSourceUrl updatedProjectSourceUrl
  cases hG : source.project_source_url <;>
    simp [PackageMetadata.project_source_url_get, hG]

theorem resetPackageSourceUrl_updatedPackageSourceUrl_of_none (source : PackageMetadata) :
    resetPackageSourceUrl (updatedPackageSourceUrl none source) source = none := by
  unfold resetPackageSourceUrl updatedPackageSourceUrl
  cases hG : source.package_source_url <;>
    simp [PackageMetadata.package_source_url_get, hG]

theorem resetLicenseUrl_updatedLicenseUrl_of_none (source : PackageMetadata) :
    resetLicenseUrl (updatedLicenseUrl none source) source = none := by
  unfold resetLicenseUrl updatedLicenseUrl
  cases hL : source.license.license_url <;> simp [hL]

/-- C2: starting from an override record with every update-eligible field
unset, `reset_same` applied after `update_from` with the same generic record
restores all update-eligible fields to their unset state, and the fields that
`update_from` never touches are unaffected by `reset_same`. -/
theorem c2_reset_same_inverts_update_from (O : ChocolateyMetadata) (G : PackageMetadata)
    (hid : O.id = "") (hmt : O.maintainers = []) (hsm : O.summary = none)
    (hpu : O.project_url = none) (hps : O.project_source_url = none)
    (hpk : O.package_source_url = none) (hlu : O.license_url = none) :
    ((O.update_from G).reset_same G).id = ""
    ∧ ((O.update_from G).reset_same G).maintainers = []
    ∧ ((O.update_from G).reset_same G).summary = none
    ∧ ((O.update_from G).reset_same G).project_url = none
    ∧ ((O.update_from G).reset_same G).project_source_url = none
    ∧ ((O.update_from G).reset_same G).package_source_url = none
    ∧ ((O.update_from G).reset_same G).license_url = none
    ∧ ((O.update_from G).reset_same G).title = O.title
    ∧ ((O.update_from G).reset_same G).copyright = O.copyright
    ∧ ((O.update_from G).reset_same G).release_notes = O.release_notes
    ∧ ((O.update_from G).reset_same G).version = O.version
    ∧ ((O.update_from G).reset_same G).authors = O.authors
    ∧ ((O.update_from G).reset_same G).description = O.description
    ∧ ((O.update_from G).reset_same G).require_license_acceptance
        = O.require_license_acceptance
    ∧ ((O.update_from G).reset_same G).lowercase_id = O.lowercase_id
    ∧ ((O.update_from G).reset_same G).documentation_url = O.documentation_url
    ∧ ((O.update_from G).reset_same G).issues_url = O.issues_url
    ∧ ((O.update_from G).reset_same G).dependencies = O.dependencies
    ∧ ((O.update_from G).reset_same G).files = O.files := by
  rw [ChocolateyMetadata.update_from_eq O G, ChocolateyMetadata.reset_same_eq]
  simp [hid, hmt, hsm, hpu, hps, hpk, hlu, resetId_updatedId_of_empty,
    resetMaintainers_updatedMaintainers_of_empty, resetSummary_updatedSummary_of_none,
    resetProjectUrl_updatedProjectUrl_of_none,
    resetProjectSourceUrl_updatedProjectSourceUrl_of_none,
    resetPackageSourceUrl_updatedPackageSourceUrl_of_none,
    resetLicenseUrl_updatedLicenseUrl_of_none]

/-- C2 witness: concrete instance of the inverse property. -/
theorem c2_witness :
    ((ChocolateyMetadata.new.update_from (PackageMetadata.new "Google Chrome")).reset_same
        (PackageMetadata.new "Google Chrome")).id = ""
    ∧ ((ChocolateyMetadata.new.update_from (PackageMetadata.new "Google Chrome")).reset_same
        (PackageMetadata.new "Google Chrome")).maintainers = [] :=
  ⟨(c2_reset_same_inverts_update_from ChocolateyMetadata.new (PackageMetadata.new "Google Chrome")
      rfl rfl rfl rfl rfl rfl rfl).1,
   (c2_reset_same_inverts_update_from ChocolateyMetadata.new (PackageMetadata.new "Google Chrome")
      rfl rfl rfl rfl rfl rfl rfl).2.1⟩

/-- C3 counterexample: for the generic record `PackageMetadata.new "pkg"`,
whose optional source URL fields are unset, the generic accessors do yield the
placeholder URL, yet after `update_from` the override's project source URL and
package source URL are still unset — so `update_from` does not assign the
accessor's value and the fields are not "always set" afterwards. -/
theorem c3_counterexample :
    (ChocolateyMetadata.new.update_from (PackageMetadata.new "pkg")).project_source_url = none
    ∧ (ChocolateyMetadata.new.update_from (PackageMetadata.new "pkg")).package_source_url = none
    ∧ (PackageMetadata.new "pkg").project_source_url_get = defaults.url
    ∧ (PackageMetadata.new "pkg").package_source_url_get = defaults.url := by
  decide

/-- C3 (amended): when the override's project (package) source URL is unset,
`update_from` copies the generic record's raw optional field — not the value
yielded by the accessor — so the override field stays unset exactly when the
generic field is unset; the accessors themselves do return the placeholder URL
by value when the underlying field is unset. -/
theorem c3_source_urls_copy_raw_field (O : ChocolateyMetadata) (G : PackageMetadata)
    (hps : O.project_source_url = none) (hpk : O.package_source_url = none) :
    (O.update_from G).project_source_url = G.project_source_url
    ∧ (O.update_from G).package_source_url = G.package_source_url
    ∧ (G.project_source_url = none → G.project_source_url_get = defaults.url)
    ∧ (G.package_source_url = none → G.package_source_url_get = defaults.url) := by
  rw [ChocolateyMetadata.update_from_eq]
  refine ⟨?_, ?_, ?_, ?_⟩
  · simp [updatedProjectSourceUrl, hps]
  · simp [updatedPackageSourceUrl, hpk]
  · intro h; simp [PackageMetadata.project_source_url_get, h]
  · intro h; simp [PackageMetadata.package_source_url_get, h]

/-- C3 witness: concrete instance of the amended property. -/
theorem c3_witness :
    (ChocolateyMetadata.new.update_from (PackageMetadata.new "x")).project_source_url
      = (PackageMetadata.new "x").project_source_url :=
  (c3_source_urls_copy_raw_field ChocolateyMetadata.new (PackageMetadata.new "x") rfl rfl).1

/-- C4 counterexample: with an override record whose identifier is `"abc"` and
whose tags already contain `"abc"` at index 1, `update_from` leaves the tags
unchanged, so the lowercase canonical identifier does not occur at index 0. -/
theorem c4_counterexample :
    (ChocolateyMetadata.update_from
        { ChocolateyMetadata.new with id := "abc", tags := ["x", "abc"] }
        (PackageMetadata.new "abc")).id = "abc"
    ∧ (ChocolateyMetadata.update_from
        { ChocolateyMetadata.new with id := "abc", tags := ["x", "abc"] }
        (PackageMetadata.new "abc")).tags = ["x", "abc"]
    ∧ ¬ ((ChocolateyMetadata.update_from
        { ChocolateyMetadata.new with id := "abc", tags := ["x", "abc"] }
        (PackageMetadata.new "abc")).tags.head? = some "abc") := by
  decide

/-- C4 (amended): after `update_from` with a non-empty resolved identifier,
the lowercase canonical identifier occurs in the tags list; and when it was
not already present in the tags before the call, it occurs exactly once, at
index 0. -/
theorem c4_tag_bootstrap (O : ChocolateyMetadata) (G : PackageMetadata)
    (h : stringIsEmpty (O.update_from G).id = false) :
    (O.update_from G).tags.contains (lowercaseString (O.update_from G).id) = true
    ∧ (O.tags.contains (lowercaseString (O.update_from G).id) = false →
        (O.update_from G).tags
            = lowercaseString (O.update_from G).id :: O.tags
        ∧ (O.update_from G).tags.count (lowercaseString (O.update_from G).id) = 1
        ∧ (O.update_from G).tags.head?
            = some (lowercaseString (O.update_from G).id)) := by
  have hid : (O.update_from G).id = updatedId O.id O.lowercase_id G := by
    rw [ChocolateyMetadata.update_from_eq]
  have htags : (O.update_from G).tags
      = updatedTags O.tags (updatedId O.id O.lowercase_id G) := by
    rw [ChocolateyMetadata.update_from_eq]
  rw [hid] at h
  rw [hid, htags]
  constructor
  · unfold updatedTags
    cases hc : O.tags.contains (lowercaseString (updatedId O.id O.lowercase_id G)) with
    | false => simp [h, hc, List.contains_cons]
    | true =>
      have hm := List.mem_of_elem_eq_true hc
      simp [h, hc, List.contains_cons, hm]
  · intro hc
    unfold updatedTags
    rw [if_pos (by rw [h, hc]; rfl)]
    refine ⟨rfl, ?_, rfl⟩
    rw [List.count_cons_self]
    have hnm : lowercaseString (updatedId O.id O.lowercase_id G) ∉ O.tags := by
      intro hmem
      have he : O.tags.contains (lowercaseString (updatedId O.id O.lowercase_id G)) = true :=
        List.elem_eq_true_of_mem hmem
      rw [hc] at he
      exact Bool.false_ne_true he
    rw [List.count_eq_zero_of_not_mem hnm]

/-- C4 witness: concrete instance of the amended tag bootstrap property. -/
theorem c4_witness :
    (ChocolateyMetadata.update_from { ChocolateyMetadata.new with id := "AbC" }
        (PackageMetadata.new "")).tags.contains
      (lowercaseString (ChocolateyMetadata.update_from
        { ChocolateyMetadata.new with id := "AbC" } (PackageMetadata.new "")).id) = true :=
  (c4_tag_bootstrap { ChocolateyMetadata.new with id := "AbC" } (PackageMetadata.new "")
    (by decide)).1

/-- C8: constructing a chocolatey override record via `with_authors` with an
empty author list always fails before any field is set; with a non-empty list
it sets the authors to the given list and leaves every other field at its
default value. -/
theorem c8_with_authors (values : List String) :
    ChocolateyMetadata.with_authors [] = none
    ∧ (values ≠ [] →
        ChocolateyMetadata.with_authors values
          = some { ChocolateyMetadata.default with authors := values }) := by
  constructor
  · rfl
  · intro h
    unfold ChocolateyMetadata.with_authors
    rw [if_neg]
    simp [List.isEmpty_iff, h]

/-- C8 witness: concrete instance with a non-empty author list. -/
theorem c8_witness :
    ChocolateyMetadata.with_authors ["AdmiringWorm"]
      = some { ChocolateyMetadata.default with authors := ["AdmiringWorm"] } :=
  (c8_with_authors ["AdmiringWorm"]).2 (by decide)

/-- C9: for every syntactically invalid URL string the package-source and
project-source setters return the `UrlParseError`-kind result (the record is
unchanged, as the error branch produces no new record), while the project-URL
setter aborts (modelled as `none`); on a valid URL string each setter stores
the parsed URL. -/
theorem c9_url_setters (m : PackageMetadata) (s : String) :
    (Url.parse s = none →
      m.set_package_source_url s = Except.error UrlParseError.invalidUrl
      ∧ m.set_project_source_url s = Except.error UrlParseError.invalidUrl
      ∧ m.set_project_url s = none)
    ∧ (∀ u : Url, Url.parse s = some u →
      m.set_package_source_url s
          = Except.ok { m with package_source_url := some u }
      ∧ m.set_project_source_url s
          = Except.ok { m with project_source_url := some u }
      ∧ m.set_project_url s = some { m with project_url := u }) := by
  constructor
  · intro h
    refine ⟨?_, ?_, ?_⟩ <;>
      simp [PackageMetadata.set_package_source_url,
        PackageMetadata.set_project_source_url, PackageMetadata.set_project_url, h]
  · intro u h
    refine ⟨?_, ?_, ?_⟩ <;>
      simp [PackageMetadata.set_package_source_url,
        PackageMetadata.set_project_source_url, PackageMetadata.set_project_url, h]

/-- C9 witness: a concrete invalid input errors on the recoverable setters and
aborts on the project-URL setter; a concrete valid input is stored. -/
theorem c9_witness :
    ((PackageMetadata.new "x").set_package_source_url "not a url"
        = Except.error UrlParseError.invalidUrl)
    ∧ ((PackageMetadata.new "x").set_project_url "not a url" = none)
    ∧ ((PackageMetadata.new "x").set_project_url "https://github.com"
        = some { PackageMetadata.new "x" with project_url := ⟨"https", "github.com", ""⟩ }) :=
  ⟨((c9_url_setters (PackageMetadata.new "x") "not a url").1 (by decide)).1,
   ((c9_url_setters (PackageMetadata.new "x") "not a url").1 (by decide)).2.2,
   ((c9_url_setters (PackageMetadata.new "x") "https://github.com").2
      ⟨"https", "github.com", ""⟩ (by decide)).2.2⟩

/-- C10 counterexample: on an unparseable version string, `add_dependencies`
does not return a typed recoverable result carrying the parser's diagnostic —
it calls `.unwrap()` and aborts (the abort is modelled as `none`). -/
theorem c10_counterexample :
    ChocolateyMetadata.new.add_dependencies "dep" "not-a-version" = none := by
  decide

/-- C10 (amended): `add_dependencies` aborts (panics) when the version string
is unparseable, and on a parseable version string inserts the
identifier-to-version pair into the dependencies map. -/
theorem c10_add_dependencies (c : ChocolateyMetadata) (id version : String) :
    (Versions.parse version = none → c.add_dependencies id version = none)
    ∧ (∀ v : Versions, Versions.parse version = some v →
        c.add_dependencies id version
          = some { c with dependencies := insertDependency c.dependencies id v }) := by
  constructor
  · intro h
    simp [ChocolateyMetadata.add_dependencies, h]
  · intro v h
    simp [ChocolateyMetadata.add_dependencies, h]

/-- C10 witness: a parseable version string inserts the dependency. -/
theorem c10_witness :
    ChocolateyMetadata.new.add_dependencies "dep" "1.2.3"
      = some { ChocolateyMetadata.new with
          dependencies := [("dep", Versions.SemVer ⟨1, 2, 3⟩)] } :=
  (c10_add_dependencies ChocolateyMetadata.new "dep" "1.2.3").2
    (Versions.SemVer ⟨1, 2, 3⟩) (by decide)

/-- C5: validating a generic record with an empty identifier, empty
maintainers, and a `file`-scheme project URL at `Core` strictness fails with
exactly three `Requirement`-severity diagnostics in the order identifier rule,
maintainers rule, project-url rule; and in general `validate_metadata`
succeeds exactly when no applicable rule produced a diagnostic. -/
theorem c5_validation_scenario (m : PackageMetadata)
    (h1 : m.id = "") (h2 : m.maintainers = []) (h3 : m.project_url.scheme = "file") :
    validate_metadata m RuleKind.Core
        = Except.error [idNotEmptyMessage, maintainersNotEmptyMessage,
            projectUrlNotLocalPathMessage]
    ∧ idNotEmptyMessage.message_type = MessageType.Requirement
    ∧ maintainersNotEmptyMessage.message_type = MessageType.Requirement
    ∧ projectUrlNotLocalPathMessage.message_type = MessageType.Requirement
    ∧ ∀ (d : PackageMetadata) (k : RuleKind),
        validate_metadata d k = Except.ok ()
          ↔ rules.metadata.run_validation d k = [] := by
  have hid : stringIsEmpty (trimString "") = true := by decide
  have hchoco : IdIsLowercaseNote.should_validate RuleKind.Core = false := rfl
  refine ⟨?_, rfl, rfl, rfl, ?_⟩
  · simp [validate_metadata, rules.metadata.run_validation,
      rules.metadata.chocolatey.run_validation,
      IdNotEmptyRequirement.validate, IdNotEmptyRequirement.should_validate,
      MaintainersNotEmptyRequirement.validate, MaintainersNotEmptyRequirement.should_validate,
      ProjectUrlNotLocalPathRequirement.validate, ProjectUrlNotLocalPathRequirement.should_validate,
      hchoco, Url.to_file_path_isOk, h1, h2, h3, hid]
  · intro d k
    cases hq : rules.metadata.run_validation d k with
    | nil => simp [validate_metadata, hq]
    | cons a as => simp [validate_metadata, hq]

/-- C5 witness: concrete instance of scenario D. -/
theorem c5_witness :
    validate_metadata
        { package_source_url := none, id := "", maintainers := [], summary := "",
          project_url := ⟨"file", "", "/home/test/test-path"⟩,
          project_source_url := none, license := LicenseType.None,
          chocolatey := none } RuleKind.Core
      = Except.error [idNotEmptyMessage, maintainersNotEmptyMessage,
          projectUrlNotLocalPathMessage] :=
  (c5_validation_scenario _ rfl rfl rfl).1

/-- C6: every diagnostic produced by the metadata rule set at `Core`
strictness is also produced at `Community` strictness for the same record. -/
theorem c6_validation_monotone (m : PackageMetadata) (msg : RuleMessage)
    (h : msg ∈ rules.metadata.run_validation m RuleKind.Core) :
    msg ∈ rules.metadata.run_validation m RuleKind.Community := by
  have hchoco : IdIsLowercaseNote.should_validate RuleKind.Core = false := rfl
  simp only [rules.metadata.run_validation, rules.metadata.chocolatey.run_validation,
    IdNotEmptyRequirement.should_validate, MaintainersNotEmptyRequirement.should_validate,
    ProjectUrlNotLocalPathRequirement.should_validate, hchoco, if_true,
    Bool.false_eq_true, if_false, List.append_nil, List.mem_append] at h ⊢
  tauto

/-- C6 witness: a diagnostic from `Core` also appears at `Community`. -/
theorem c6_witness :
    idNotEmptyMessage ∈ rules.metadata.run_validation (PackageMetadata.new "") RuleKind.Community :=
  c6_validation_monotone (PackageMetadata.new "") idNotEmptyMessage (by decide)
